import Mathlib

/-!
Verification of the YDK `CodecService` adapter
(`sdk/python/core/ydk/services/codec_service.py`).

The adapter is shallowly embedded: pure Python string manipulation is
translated to executable Lean functions over `String`/`List Char`,
fallible code returns `Except PyError`, and the opaque external
collaborators (the native generic-tree codec engine, the entity/tree
mapper) are modelled from the specification as an explicit `Engine`
record of functions, with one concrete instance (`specEngine`) built
from the spec's contracts.
-/

set_option autoImplicit false

namespace Ydk

/-- Python-level exceptions that the codec service code can surface.
`ypyServiceProviderError` models `YPYServiceProviderError`; the other
constructors model host-level (interpreter) errors: `NameError`,
`ValueError` (tuple-unpack failures), `IndexError`, the XML parser's
`ParseError` and JSON's `JSONDecodeError`, and Python's
`ModuleNotFoundError` from `importlib.import_module`. -/
inductive PyError where
  | ypyServiceProviderError (msg : String)
  | nameError (varName : String)
  | valueError (msg : String)
  | indexError (msg : String)
  | parseError (msg : String)
  | jsonDecodeError (msg : String)
  | moduleNotFoundError (modName : String)
deriving DecidableEq

/-- `EncodingFormat` from `ydk.types`: the provider's fixed wire format. -/
inductive EncodingFormat where
  | XML
  | JSON
deriving DecidableEq

/-- The codec service provider: only its fixed `encoding` property is
observed by the code under verification (`initialize` is an idempotent
setup call with no observable effect modelled here, and
`get_root_schema` is modelled as returning the bundle name as the
opaque schema handle). -/
structure Provider where
  encoding : EncodingFormat

mutual
/-- A field value of a model object: a scalar leaf or a nested
container of named fields (the recursive object graph of §3). -/
inductive Value where
  | scalar (s : String)
  | nested (fs : Fields)
deriving DecidableEq
/-- A finite ordered list of named fields of a model object. -/
inductive Fields where
  | nil
  | cons (name : String) (v : Value) (rest : Fields)
deriving DecidableEq
end

/-- A model object ("entity", `ydk.types.Entity`): its Python
`__module__` string (type identity), the namespace and local name of
its top-level YANG container, and its populated fields. -/
structure Entity where
  module : String
  ns : String
  ename : String
  fields : Fields
deriving DecidableEq

/-- `Entity.clone_ptr()`: returns a fresh independent copy of the
prototype.  Under value semantics a deep copy is the value itself. -/
def Entity.clone_ptr (e : Entity) : Entity := e

mutual
/-- A node of the engine's generic schema tree (`DataNode` in
`ydk.path`): a leaf with a value or a container with children. -/
inductive DataNode where
  | leaf (name : String) (value : String)
  | container (name : String) (children : NodeList)
deriving DecidableEq
/-- The enumerable children collection of a generic tree node. -/
inductive NodeList where
  | nil
  | cons (n : DataNode) (rest : NodeList)
deriving DecidableEq
end

/-- `root_data_node.children()`: the immediate children of a node. -/
def DataNode.childrenL : DataNode → NodeList
  | .leaf _ _ => .nil
  | .container _ cs => cs

/-- `len(...)` over a children collection. -/
def NodeList.length : NodeList → Nat
  | .nil => 0
  | .cons _ rest => 1 + rest.length

/-- Left fold over a children collection; models the Python loop
`for data_node in root_data_node.children(): ...` threading the
mutated accumulator. -/
def NodeList.foldl {α : Type} (f : α → DataNode → α) : NodeList → α → α
  | .nil, acc => acc
  | .cons dn rest, acc => rest.foldl f (f acc dn)

/-- A wire payload, already parsed by the host parser
(`xml.etree.ElementTree.fromstring` / `json.loads`): an XML document is
a root element with a tag string and child nodes; a JSON document is a
top-level object, a finite ordered list of key/content entries. -/
inductive Payload where
  | xml (rootTag : String) (children : NodeList)
  | json (entries : List (String × NodeList))
deriving DecidableEq

/-- `xml.etree.ElementTree.fromstring(payload).tag`: succeeds on an XML
document and returns the root tag; a non-XML payload raises
`ParseError`. -/
def etreeFromstringTag : Payload → Except PyError String
  | .xml tag _ => .ok tag
  | .json _ => .error (.parseError "syntax error")

/-- `list(json.loads(payload).keys())`: succeeds on a JSON document and
returns the top-level keys in order; a non-JSON payload raises
`JSONDecodeError`. -/
def jsonLoadsKeys : Payload → Except PyError (List String)
  | .json entries => .ok (entries.map Prod.fst)
  | .xml _ _ => .error (.jsonDecodeError "Expecting value")

/-- Python `str.split(c)` / `str.rsplit(c)` with no maxsplit: split on
every occurrence of the separator character, over a character list. -/
def pySplitList (c : Char) : List Char → List (List Char)
  | [] => [[]]
  | x :: xs =>
    if x = c then [] :: pySplitList c xs
    else
      match pySplitList c xs with
      | [] => [[x]]
      | g :: gs => (x :: g) :: gs

/-- Python `s.split(c)` (equivalently `s.rsplit(c)` with no maxsplit). -/
def pySplitChar (c : Char) (s : String) : List String :=
  (pySplitList c s.data).map String.mk

/-- Python `s.strip(c)`: remove every leading and trailing occurrence
of the character `c`. -/
def pyStrip (c : Char) (s : String) : String :=
  String.mk (((s.data.dropWhile (fun x => x = c)).reverse.dropWhile (fun x => x = c)).reverse)

/-- `_get_string`: under Python 3 (`sys.version_info >= (3, 0)`) the
string is returned unchanged. -/
def get_string (s : String) : String := s

/-- `_get_ns_ename(payload, encoding)` (codec_service.py:203-226):
extract the namespace and entity name from the payload.  XML branch:
`ns, ename = payload_root.tag.rsplit('}'); ns = ns.strip('{')` — the
2-element tuple unpack raises `ValueError` unless the split yields
exactly two parts.  JSON branch: `keys[0]` raises `IndexError` on an
empty object, then `ns, ename = keys[0].split(':')` raises
`ValueError` unless the key holds exactly one colon. -/
def get_ns_ename (payload : Payload) (encoding : EncodingFormat) :
    Except PyError (String × String) :=
  match encoding with
  | .XML =>
    match etreeFromstringTag payload with
    | .error e => .error e
    | .ok tag =>
      match pySplitChar '}' tag with
      | [ns, ename] => .ok (pyStrip '{' ns, ename)
      | [_] => .error (.valueError "not enough values to unpack (expected 2, got 1)")
      | [] => .error (.valueError "not enough values to unpack (expected 2, got 0)")
      | _ => .error (.valueError "too many values to unpack (expected 2)")
  | .JSON =>
    match jsonLoadsKeys payload with
    | .error e => .error e
    | .ok [] => .error (.indexError "list index out of range")
    | .ok (k :: _) =>
      match pySplitChar ':' k with
      | [ns, ename] => .ok (get_string ns, get_string ename)
      | [_] => .error (.valueError "not enough values to unpack (expected 2, got 1)")
      | [] => .error (.valueError "not enough values to unpack (expected 2, got 0)")
      | _ => .error (.valueError "too many values to unpack (expected 2)")

/-- The on-disk metadata of one installed model package under
`ydk.models`: the package's filesystem path (`__path__[0]`), and the
`BUNDLE_NAME` constant and `ENTITY_LOOKUP` mapping of its `_yang_ns`
module. -/
structure ModelPackage where
  path : String
  bundleName : String
  entityLookup : List ((String × String) × Entity)
deriving DecidableEq

/-- The set of installed model packages, as enumerated by
`pkgutil.iter_modules(ydk_models.__path__)`: short package name paired
with its metadata (only `ispkg` entries are modelled, as the source
skips non-packages). -/
abbrev Installed : Type := List (String × ModelPackage)

/-- `ns_ename in entity_lookup` / `entity_lookup[ns_ename]`: first
matching entry of an `ENTITY_LOOKUP` dictionary. -/
def lookupPair : List ((String × String) × Entity) → (String × String) → Option Entity
  | [], _ => none
  | (k, e) :: rest, p => if k = p then some e else lookupPair rest p

/-- The package scan inside `_get_top_entity` (codec_service.py:185-190):
walk the installed packages in enumeration order; for the first one
whose `ENTITY_LOOKUP` holds the sniffed pair, return
`entity_lookup[ns_ename].clone_ptr()`. -/
def scanPackages : Installed → (String × String) → Option Entity
  | [], _ => none
  | (_, pkg) :: rest, p =>
    match lookupPair pkg.entityLookup p with
    | some proto => some proto.clone_ptr
    | none => scanPackages rest p

/-- Python `s.rsplit('.', 1)[0]`: everything before the last dot, or
the whole string when it holds no dot. -/
def pyRsplitParent (s : String) : String :=
  if s.data.contains '.' then
    String.mk (((s.data.reverse.dropWhile (fun c => c ≠ '.')).drop 1).reverse)
  else s

/-- `importlib.import_module` for a package under `ydk.models`: find
the installed package whose full module name `ydk.models.<name>`
equals the requested name. -/
def lookupPackage : Installed → String → Option ModelPackage
  | [], _ => none
  | (n, pkg) :: rest, fullName =>
    if "ydk.models." ++ n = fullName then some pkg else lookupPackage rest fullName

/-- `_get_bundle_name(entity)` (codec_service.py:243-254): import the
parent package of `entity.__module__` and read its `_yang_ns`
module's `BUNDLE_NAME`; `none` models `ModuleNotFoundError` when the
package is not installed. -/
def get_bundle_name (installed : Installed) (e : Entity) : Option String :=
  (lookupPackage installed (pyRsplitParent e.module)).map (fun p => p.bundleName)

/-- `_get_yang_path(entity)` (codec_service.py:229-240): import the
parent package of `entity.__module__` and join its `__path__[0]` with
`_yang`. -/
def get_yang_path (installed : Installed) (e : Entity) : Option String :=
  (lookupPackage installed (pyRsplitParent e.module)).map (fun p => p.path ++ "/_yang")

/-- A namespace-qualified top-level generic tree node, as handed to the
engine's encode entry point. -/
structure TopNode where
  ns : String
  name : String
  children : NodeList

/-- The opaque external collaborators of the adapter (§6), gathered as
a record of functions so that theorems about the adapter quantify over
every engine behaviour: `_get_data_node_from_entity`, the path
`CodecService.encode` / `CodecService.decode` of the native engine,
and `_get_entity_from_data_node`. -/
structure Engine where
  dataNodeFromEntity : Entity → String → TopNode
  treeEncode : TopNode → EncodingFormat → Bool → Payload
  treeDecode : String → Payload → EncodingFormat → DataNode
  entityFromDataNode : DataNode → Entity → Entity

/-- The message constant `_PAYLOAD_ERROR_MSG` (codec_service.py:39). -/
def PAYLOAD_ERROR_MSG : String :=
  "Codec service only supports one entity per payload, please split payload"

/-- The message constant `_ENTITY_ERROR_MSG` (codec_service.py:37);
its format hole is written with escaped braces. -/
def ENTITY_ERROR_MSG : String := "No local YDK object install for \x7b\x7d"

namespace CodecService

/-- `CodecService._get_top_entity(payload, encoding)`
(codec_service.py:161-193): sniff `(namespace, entity-name)` from the
payload, then scan the installed model packages for a matching
`ENTITY_LOOKUP` entry and return a clone of its prototype.  When the
scan fails, the source executes
`self.logger.debug(_ENTITY_ERROR_MSG.format(ename))` (line 192) — but
no local variable `ename` is in scope there (the sniffed pair is bound
to `ns_ename`), so Python raises `NameError: name 'ename' is not
defined` before any `YPYServiceProviderError` can be constructed. -/
def get_top_entity (installed : Installed) (payload : Payload)
    (encoding : EncodingFormat) : Except PyError Entity :=
  match get_ns_ename payload encoding with
  | .error e => .error e
  | .ok ns_ename =>
    match scanPackages installed ns_ename with
    | some ent => .ok ent
    | none => .error (.nameError "ename")

/-- `CodecService._encode(provider, entity, pretty)`
(codec_service.py:76-99): resolve the bundle name and YANG path of the
entity's owning package (each raising `ModuleNotFoundError` if the
package is missing), initialize the provider, obtain the root schema
(modelled as the bundle name), map the entity to a generic tree node
and delegate to the engine's encode. -/
def encode1 (eng : Engine) (installed : Installed) (provider : Provider)
    (entity : Entity) (pretty : Bool) : Except PyError Payload :=
  match get_bundle_name installed entity with
  | none => .error (.moduleNotFoundError (pyRsplitParent entity.module))
  | some bundle_name =>
    match get_yang_path installed entity with
    | none => .error (.moduleNotFoundError (pyRsplitParent entity.module))
    | some _yang_path =>
      let root_schema := bundle_name
      let data_node := eng.dataNodeFromEntity entity root_schema
      .ok (eng.treeEncode data_node provider.encoding pretty)

/-- `CodecService._decode(provider, payload)` (codec_service.py:125-159):
look up the top entity, resolve its bundle and YANG path, delegate to
the engine's decode to obtain the root data node, enforce the
single-top-level-container invariant
(`len(root_data_node.children()) != 1` raises
`YPYServiceProviderError(_PAYLOAD_ERROR_MSG)`), then map each child
(exactly one) into the prototype instance. -/
def decode1 (eng : Engine) (installed : Installed) (provider : Provider)
    (payload : Payload) : Except PyError Entity :=
  match get_top_entity installed payload provider.encoding with
  | .error e => .error e
  | .ok entity =>
    match get_bundle_name installed entity with
    | none => .error (.moduleNotFoundError (pyRsplitParent entity.module))
    | some bundle_name =>
      match get_yang_path installed entity with
      | none => .error (.moduleNotFoundError (pyRsplitParent entity.module))
      | some _yang_path =>
        let root_schema := bundle_name
        let root_data_node := eng.treeDecode root_schema payload provider.encoding
        if root_data_node.childrenL.length ≠ 1 then
          .error (.ypyServiceProviderError PAYLOAD_ERROR_MSG)
        else
          .ok (root_data_node.childrenL.foldl
            (fun acc dn => eng.entityFromDataNode dn acc) entity)

end CodecService

/-- The argument of the public `encode`: a single entity or a
dictionary of keyed entities (insertion-ordered association list). -/
inductive EntityHolder where
  | single (e : Entity)
  | dict (m : List (String × Entity))
deriving DecidableEq

/-- The argument of the public `decode` / result of the public
`encode`: a single payload or a dictionary of keyed payloads. -/
inductive PayloadHolder where
  | single (p : Payload)
  | dict (m : List (String × Payload))
deriving DecidableEq

namespace CodecService

/-- The batch loop of `CodecService.encode` (codec_service.py:68-72):
`payload_map[key] = self._encode(provider, entity_holder[key], pretty)`
for each key in iteration order; any exception aborts the loop and
propagates, discarding the partial map. -/
def encodeMap (eng : Engine) (installed : Installed) (provider : Provider)
    (pretty : Bool) : List (String × Entity) → Except PyError (List (String × Payload))
  | [] => .ok []
  | (k, ent) :: rest =>
    match encode1 eng installed provider ent pretty with
    | .error e => .error e
    | .ok pl =>
      match encodeMap eng installed provider pretty rest with
      | .error e => .error e
      | .ok pm => .ok ((k, pl) :: pm)

/-- `CodecService.encode(provider, entity_holder, pretty=True)`
(codec_service.py:52-74): dictionary arguments are encoded key by key
into a dictionary of payloads; a single entity yields a single
payload. -/
def encode (eng : Engine) (installed : Installed) (provider : Provider)
    (eh : EntityHolder) (pretty : Bool) : Except PyError PayloadHolder :=
  match eh with
  | .dict m =>
    match encodeMap eng installed provider pretty m with
    | .error e => .error e
    | .ok pm => .ok (.dict pm)
  | .single e =>
    match encode1 eng installed provider e pretty with
    | .error err => .error err
    | .ok pl => .ok (.single pl)

/-- The batch loop of `CodecService.decode` (codec_service.py:116-121). -/
def decodeMap (eng : Engine) (installed : Installed) (provider : Provider) :
    List (String × Payload) → Except PyError (List (String × Entity))
  | [] => .ok []
  | (k, pl) :: rest =>
    match decode1 eng installed provider pl with
    | .error e => .error e
    | .ok ent =>
      match decodeMap eng installed provider rest with
      | .error e => .error e
      | .ok em => .ok ((k, ent) :: em)

/-- `CodecService.decode(provider, payload_holder)`
(codec_service.py:101-123). -/
def decode (eng : Engine) (installed : Installed) (provider : Provider)
    (ph : PayloadHolder) : Except PyError EntityHolder :=
  match ph with
  | .dict m =>
    match decodeMap eng installed provider m with
    | .error e => .error e
    | .ok em => .ok (.dict em)
  | .single pl =>
    match decode1 eng installed provider pl with
    | .error err => .error err
    | .ok ent => .ok (.single ent)

end CodecService

mutual
/-- Modelled from the spec: the Entity-to-Tree direction of the
Entity↔Tree Mapper (`_get_data_node_from_entity`, §4.3) on one field —
one generic tree node per populated field, recursing into nested
objects. -/
def valueToNode (name : String) : Value → DataNode
  | .scalar s => .leaf name s
  | .nested fs => .container name (fieldsToNodes fs)
/-- Modelled from the spec: mapping of a field list to the children
collection of a generic tree node, preserving field order (§4.3). -/
def fieldsToNodes : Fields → NodeList
  | .nil => .nil
  | .cons n v rest => .cons (valueToNode n v) (fieldsToNodes rest)
end

mutual
/-- Modelled from the spec: the Tree-to-Entity direction of the
Entity↔Tree Mapper (`_get_entity_from_data_node`, §4.3) on one node —
a leaf becomes a scalar field, a container a nested object. -/
def nodeToField : DataNode → String × Value
  | .leaf n s => (n, .scalar s)
  | .container n cs => (n, .nested (nodesToFields cs))
/-- Modelled from the spec: mapping of a children collection back to a
field list, preserving order (§4.3). -/
def nodesToFields : NodeList → Fields
  | .nil => .nil
  | .cons dn rest => .cons (nodeToField dn).1 (nodeToField dn).2 (nodesToFields rest)
end

mutual
theorem nodeToField_valueToNode : ∀ (n : String) (v : Value), nodeToField (valueToNode n v) = (n, v)
  | _, .scalar _ => rfl
  | n, .nested fs => by
    simp [valueToNode, nodeToField, nodesToFields_fieldsToNodes fs]
theorem nodesToFields_fieldsToNodes : ∀ fs : Fields, nodesToFields (fieldsToNodes fs) = fs
  | .nil => rfl
  | .cons n v rest => by
    simp [fieldsToNodes, nodesToFields, nodeToField_valueToNode n v,
      nodesToFields_fieldsToNodes rest]
end

/-- Modelled from the spec: the XML form of one top-level container —
namespace declared via `\x7buri\x7dlocalname` tag notation (§6). -/
def xmlFormOf (ns ename : String) (content : NodeList) : Payload :=
  .xml ("\x7b" ++ ns ++ "\x7d" ++ ename) content

/-- Modelled from the spec: the JSON form of the same top-level
container — namespace and name combined in the single top-level key
`"namespace:localname"` (§6). -/
def jsonFormOf (ns ename : String) (content : NodeList) : Payload :=
  .json [(ns ++ ":" ++ ename, content)]

/-- Modelled from the spec: `_get_data_node_from_entity` — root the
entity's populated fields under its namespace-qualified top container
(§4.3 encode direction). -/
def specDataNodeFromEntity (e : Entity) (_rootSchema : String) : TopNode :=
  ⟨e.ns, e.ename, fieldsToNodes e.fields⟩

/-- Modelled from the spec: the Generic Tree Codec's encode
(`CodecService.encode` of `ydk.path`, §6) — serialize the top node in
the requested format; `pretty` controls whitespace only, which this
parsed-payload model does not represent. -/
def specTreeEncode (t : TopNode) (encoding : EncodingFormat) (_pretty : Bool) : Payload :=
  match encoding with
  | .XML => xmlFormOf t.ns t.name t.children
  | .JSON => jsonFormOf t.ns t.name t.children

/-- Modelled from the spec: one generic tree node per top-level JSON
key (the decoded root exposes one child per top-level container, §6
and §8's two-key decode-failure scenario). -/
def jsonEntriesToNodes : List (String × NodeList) → NodeList
  | [] => .nil
  | (k, cs) :: rest => .cons (.container k cs) (jsonEntriesToNodes rest)

/-- Modelled from the spec: the Generic Tree Codec's decode
(`CodecService.decode` of `ydk.path`, §6) — parse the payload into a
generic tree whose root exposes the payload's top-level containers as
its children collection: one child for an XML document's root element,
one child per top-level key of a JSON object. -/
def specTreeDecode (_rootSchema : String) (p : Payload)
    (_encoding : EncodingFormat) : DataNode :=
  match p with
  | .xml tag cs => .container "" (.cons (.container tag cs) .nil)
  | .json entries => .container "" (jsonEntriesToNodes entries)

/-- Modelled from the spec: `_get_entity_from_data_node` — walk the
tree node's children, populating the corresponding fields of the
target prototype (§4.3 decode direction; an empty-children node leaves
every optional field unset). -/
def specEntityFromDataNode (dn : DataNode) (target : Entity) : Entity :=
  match dn with
  | .leaf _ _ => { target with fields := .nil }
  | .container _ cs => { target with fields := nodesToFields cs }

/-- Modelled from the spec: the concrete external-collaborator record
assembled from the four contracts above. -/
def specEngine : Engine :=
  ⟨specDataNodeFromEntity, specTreeEncode, specTreeDecode, specEntityFromDataNode⟩

/-- Operational well-formedness of a `(namespace, local-name)` pair for
one wire format: the qualified form built by the serializer is taken
apart exactly by the sniffing step's Python string operations.  This is
the shape every schema-derived identifier has (YANG module names and
identifiers contain none of the separator characters). -/
def sniffable (encoding : EncodingFormat) (ns ename : String) : Prop :=
  match encoding with
  | .XML =>
    pySplitChar '}' ("\x7b" ++ ns ++ "\x7d" ++ ename) = ["\x7b" ++ ns, ename] ∧
    pyStrip '{' ("\x7b" ++ ns) = ns
  | .JSON =>
    pySplitChar ':' (ns ++ ":" ++ ename) = [ns, ename]

instance (encoding : EncodingFormat) (ns ename : String) :
    Decidable (sniffable encoding ns ename) := by
  unfold sniffable
  cases encoding <;> infer_instance

end Ydk


namespace Ydk

/-! Concrete instances used by witnesses: a small installed model
package `pkga` registering the pair `("n", "t")`. -/

/-- A prototype entity as stored in `ENTITY_LOOKUP`: no populated
fields, owning module `ydk.models.pkga.mod`. -/
def wProto : Entity := ⟨"ydk.models.pkga.mod", "n", "t", .nil⟩

/-- The same entity with one populated scalar field. -/
def wEnt : Entity := ⟨"ydk.models.pkga.mod", "n", "t", .cons "f" (.scalar "v") .nil⟩

/-- An entity whose owning package is not installed. -/
def wBadEnt : Entity := ⟨"nowhere.mod", "n", "t", .nil⟩

/-- The installed package `pkga`, bundle name `ba`, path `/p`. -/
def wPkg : ModelPackage := ⟨"/p", "ba", [(("n", "t"), wProto)]⟩

/-- An installed-package set holding only `pkga`. -/
def wInstalled : Installed := [("pkga", wPkg)]

/-- A JSON payload whose single top-level key is `n:t`. -/
def wPayload : Payload := .json [("n:t", .nil)]

/-- An engine whose decode returns a root with zero children. -/
def wEngineZero : Engine :=
  { specEngine with treeDecode := fun _ _ _ => .container "" .nil }

end Ydk

namespace Ydk

/-- C1: on a single-payload decode, once the top entity is resolved and
its bundle located, if the engine-decoded root's children collection
has length ≠ 1 then `_decode` raises `YPYServiceProviderError` with
`_PAYLOAD_ERROR_MSG` (the message naming the one-entity-per-payload
constraint), and if the root has exactly one child no such error is
raised and the single child is mapped into the prototype instance. -/
theorem decode_single_container_invariant (eng : Engine) (installed : Installed)
    (provider : Provider) (payload : Payload) (entity : Entity) (bn yp : String)
    (h1 : CodecService.get_top_entity installed payload provider.encoding = .ok entity)
    (h2 : get_bundle_name installed entity = some bn)
    (h3 : get_yang_path installed entity = some yp) :
    ((eng.treeDecode bn payload provider.encoding).childrenL.length ≠ 1 →
      CodecService.decode1 eng installed provider payload =
        .error (.ypyServiceProviderError PAYLOAD_ERROR_MSG)) ∧
    (∀ c, (eng.treeDecode bn payload provider.encoding).childrenL = .cons c .nil →
      CodecService.decode1 eng installed provider payload =
        .ok (eng.entityFromDataNode c entity)) ∧
    PAYLOAD_ERROR_MSG =
      "Codec service only supports one entity per payload, please split payload" := by
  refine ⟨?_, ?_, rfl⟩
  · intro hne
    simp only [CodecService.decode1, h1, h2, h3]
    rw [if_pos hne]
  · intro c hc
    simp only [CodecService.decode1, h1, h2, h3, hc]
    have hlen : (NodeList.cons c .nil).length = 1 := rfl
    simp [hlen, NodeList.foldl]

/-- Closed witness for C1: a zero-children engine makes the concrete
decode fail with the payload-structure message, while the spec engine
(one child) maps that child into the prototype. -/
theorem decode_single_container_invariant_witness :
    CodecService.decode1 wEngineZero wInstalled ⟨.JSON⟩ wPayload =
      .error (.ypyServiceProviderError PAYLOAD_ERROR_MSG) ∧
    CodecService.decode1 specEngine wInstalled ⟨.JSON⟩ wPayload =
      .ok (specEngine.entityFromDataNode (.container "n:t" .nil) wProto) :=
  ⟨(decode_single_container_invariant wEngineZero wInstalled ⟨.JSON⟩ wPayload wProto
      "ba" "/p/_yang" rfl rfl rfl).1 (by decide),
   (decode_single_container_invariant specEngine wInstalled ⟨.JSON⟩ wPayload wProto
      "ba" "/p/_yang" rfl rfl rfl).2.1 (.container "n:t" .nil) rfl⟩

/-- C2 (code bug): decoding a payload whose sniffed pair is in no
installed package's `ENTITY_LOOKUP` does not raise the documented
`YPYServiceProviderError` naming the identifier — the failure branch of
`_get_top_entity` (codec_service.py:192) references the unbound local
name `ename`, so the host raises `NameError: name 'ename' is not
defined` instead. -/
theorem decode_unknown_pair_raises_nameError :
    CodecService.decode specEngine [] ⟨.JSON⟩ (.single (.json [("x:y", .nil)])) =
      .error (.nameError "ename") ∧
    ∀ msg, (PyError.nameError "ename") ≠ .ypyServiceProviderError msg :=
  ⟨rfl, fun _ h => PyError.noConfusion h⟩

/-- C8: the bundle name and the YANG schema location are functions of
the entity's type identity (its `__module__` string) only — two
entities with the same module but arbitrary different field contents
resolve to the same bundle descriptor. -/
theorem bundle_descriptor_depends_only_on_type_identity (installed : Installed)
    (e1 e2 : Entity) (h : e1.module = e2.module) :
    get_bundle_name installed e1 = get_bundle_name installed e2 ∧
    get_yang_path installed e1 = get_yang_path installed e2 := by
  unfold get_bundle_name get_yang_path
  rw [h]
  exact ⟨rfl, rfl⟩

/-- Closed witness for C8: `wEnt` and `wProto` differ in field contents
but share a module, hence share bundle name and schema location. -/
theorem bundle_descriptor_depends_only_on_type_identity_witness :
    (wEnt.fields ≠ wProto.fields) ∧
    get_bundle_name wInstalled wEnt = get_bundle_name wInstalled wProto ∧
    get_yang_path wInstalled wEnt = get_yang_path wInstalled wProto :=
  ⟨by decide, bundle_descriptor_depends_only_on_type_identity wInstalled wEnt wProto rfl⟩

/-- C10: the sniffing step is partial at the public decode interface —
a JSON payload with an empty top-level object fails with `IndexError`
(`keys[0]`), and an XML payload whose root tag has no namespace
bracket (its tag splits on `unicode 7d` into a single part) fails with
the tuple-unpack `ValueError`; neither is the module's declared
`YPYServiceProviderError`. -/
theorem sniff_partial_host_errors (eng : Engine) (installed : Installed)
    (tag : String) (cs : NodeList) (hnb : pySplitChar '}' tag = [tag]) :
    CodecService.decode eng installed ⟨.JSON⟩ (.single (.json [])) =
      .error (.indexError "list index out of range") ∧
    CodecService.decode eng installed ⟨.XML⟩ (.single (.xml tag cs)) =
      .error (.valueError "not enough values to unpack (expected 2, got 1)") ∧
    (∀ msg, (PyError.indexError "list index out of range") ≠ .ypyServiceProviderError msg) ∧
    (∀ msg, (PyError.valueError "not enough values to unpack (expected 2, got 1)") ≠
      .ypyServiceProviderError msg) := by
  refine ⟨rfl, ?_, fun _ h => PyError.noConfusion h, fun _ h => PyError.noConfusion h⟩
  simp only [CodecService.decode, CodecService.decode1, CodecService.get_top_entity,
    get_ns_ename, etreeFromstringTag, hnb]

/-- Closed witness for C10 at the bracketless tag `interfaces`. -/
theorem sniff_partial_host_errors_witness :
    CodecService.decode specEngine wInstalled ⟨.JSON⟩ (.single (.json [])) =
      .error (.indexError "list index out of range") ∧
    CodecService.decode specEngine wInstalled ⟨.XML⟩ (.single (.xml "interfaces" .nil)) =
      .error (.valueError "not enough values to unpack (expected 2, got 1)") :=
  ⟨(sniff_partial_host_errors specEngine wInstalled "interfaces" .nil rfl).1,
   (sniff_partial_host_errors specEngine wInstalled "interfaces" .nil rfl).2.1⟩

end Ydk

namespace Ydk

/-- C5 counterexample: the claim says a first key with more than one
colon is split at the first colon only, so `a:b:c` would sniff to
`("a", "b:c")` — but `keys[0].split(':')` splits on every colon and
the 2-tuple unpack raises `ValueError` instead. -/
theorem json_sniff_first_colon_counterexample :
    get_ns_ename (.json [("a:b:c", .nil)]) .JSON =
      .error (.valueError "too many values to unpack (expected 2)") ∧
    get_ns_ename (.json [("a:b:c", .nil)]) .JSON ≠ .ok ("a", "b:c") :=
  ⟨rfl, by
    intro h
    rw [show get_ns_ename (.json [("a:b:c", .nil)]) .JSON =
        .error (.valueError "too many values to unpack (expected 2)") from rfl] at h
    exact Except.noConfusion h⟩

/-- C5 as amended: the sniff takes the top-level object's first key
and splits it on every colon; it returns the two parts exactly when
the key holds exactly one colon, and a key with more than one colon
raises the host `ValueError` (tuple unpack) rather than being split at
the first colon. -/
theorem json_sniff_first_key_split (k : String) (v : NodeList)
    (rest : List (String × NodeList)) :
    (∀ a b, pySplitChar ':' k = [a, b] →
      get_ns_ename (.json ((k, v) :: rest)) .JSON = .ok (a, b)) ∧
    (2 < (pySplitChar ':' k).length →
      get_ns_ename (.json ((k, v) :: rest)) .JSON =
        .error (.valueError "too many values to unpack (expected 2)")) := by
  constructor
  · intro a b hab
    simp only [get_ns_ename, jsonLoadsKeys, List.map, hab, get_string]
  · intro hlen
    match hl : pySplitChar ':' k with
    | [] => rw [hl] at hlen; simp at hlen
    | [a] => rw [hl] at hlen; simp at hlen
    | [a, b] => rw [hl] at hlen; simp at hlen
    | a :: b :: c :: tl =>
      simp only [get_ns_ename, jsonLoadsKeys, List.map, hl]

/-- Closed witness for C5: a one-colon key splits into its two parts; a
two-colon key aborts with the unpack error. -/
theorem json_sniff_first_key_split_witness :
    get_ns_ename (.json [("a:b", .nil)]) .JSON = .ok ("a", "b") ∧
    get_ns_ename (.json [("a:b:c", .nil)]) .JSON =
      .error (.valueError "too many values to unpack (expected 2)") :=
  ⟨(json_sniff_first_key_split "a:b" .nil []).1 "a" "b" (by decide),
   (json_sniff_first_key_split "a:b:c" .nil []).2 (by decide)⟩

/-- C4 counterexample: for the same content under the URI namespace
`urn:example:if` (colons in the namespace, as XML namespace URIs
have), the XML branch sniffs `("urn:example:if", "interface")` while
the JSON branch raises `ValueError` from the colon split — the two
branches do not produce identical pairs. -/
theorem sniff_equivalence_counterexample :
    get_ns_ename (xmlFormOf "urn:example:if" "interface" .nil) .XML =
      .ok ("urn:example:if", "interface") ∧
    get_ns_ename (jsonFormOf "urn:example:if" "interface" .nil) .JSON =
      .error (.valueError "too many values to unpack (expected 2)") ∧
    get_ns_ename (xmlFormOf "urn:example:if" "interface" .nil) .XML ≠
      get_ns_ename (jsonFormOf "urn:example:if" "interface" .nil) .JSON :=
  ⟨rfl, rfl, by
    intro h
    rw [show get_ns_ename (xmlFormOf "urn:example:if" "interface" .nil) .XML =
        .ok ("urn:example:if", "interface") from rfl,
      show get_ns_ename (jsonFormOf "urn:example:if" "interface" .nil) .JSON =
        .error (.valueError "too many values to unpack (expected 2)") from rfl] at h
    exact Except.noConfusion h⟩

/-- C4 as amended: the XML and JSON branches of the sniff yield the
same `(namespace, local_name)` pair for the two forms of the same
content whenever the pair is free of the formats' separator
characters (no colon in namespace or name for the JSON key, no closing
namespace bracket inside either part and no brace at the namespace's
edges for the XML tag); a namespace containing a colon (any URI) makes
the JSON branch fail instead. -/
theorem sniff_equivalence_amended (ns ename : String) (content : NodeList)
    (hx : sniffable .XML ns ename) (hj : sniffable .JSON ns ename) :
    get_ns_ename (xmlFormOf ns ename content) .XML = .ok (ns, ename) ∧
    get_ns_ename (jsonFormOf ns ename content) .JSON = .ok (ns, ename) := by
  obtain ⟨hx1, hx2⟩ := hx
  have hj1 : pySplitChar ':' (ns ++ ":" ++ ename) = [ns, ename] := hj
  constructor
  · simp only [get_ns_ename, xmlFormOf, etreeFromstringTag, hx1, hx2]
  · simp only [get_ns_ename, jsonFormOf, jsonLoadsKeys, List.map, hj1, get_string]

/-- Closed witness for C4 at the separator-free pair
`("ex-if", "interface")`. -/
theorem sniff_equivalence_amended_witness :
    get_ns_ename (xmlFormOf "ex-if" "interface" .nil) .XML = .ok ("ex-if", "interface") ∧
    get_ns_ename (jsonFormOf "ex-if" "interface" .nil) .JSON = .ok ("ex-if", "interface") :=
  sniff_equivalence_amended "ex-if" "interface" .nil (by decide) (by decide)

end Ydk

namespace Ydk

/-- Helper: when every entry of the dictionary encodes successfully,
`encodeMap` succeeds and pairs the entries one-for-one. -/
theorem encodeMap_ok_of_all (eng : Engine) (installed : Installed)
    (provider : Provider) (pretty : Bool) :
    ∀ m : List (String × Entity),
    (∀ ke ∈ m, ∃ pl, CodecService.encode1 eng installed provider ke.2 pretty = .ok pl) →
    ∃ pm, CodecService.encodeMap eng installed provider pretty m = .ok pm ∧
      List.Forall₂ (fun (ke : String × Entity) (kp : String × Payload) =>
        ke.1 = kp.1 ∧
        CodecService.encode1 eng installed provider ke.2 pretty = .ok kp.2) m pm := by
  intro m
  induction m with
  | nil => exact fun _ => ⟨[], rfl, .nil⟩
  | cons ke rest ih =>
    intro h
    obtain ⟨pl, hpl⟩ := h ke (List.mem_cons_self ke rest)
    obtain ⟨pm, hpm, hf⟩ := ih (fun x hx => h x (List.mem_cons_of_mem ke hx))
    refine ⟨(ke.1, pl) :: pm, ?_, .cons ⟨rfl, hpl⟩ hf⟩
    simp only [CodecService.encodeMap, hpl, hpm]

/-- C6: batch encode over a mapping whose per-item encodes all succeed
returns a mapping with exactly the same keys (in order), each value
being the result of encoding that key's entity alone with the same
provider and pretty flag. -/
theorem encode_batch_preserves_keys (eng : Engine) (installed : Installed)
    (provider : Provider) (pretty : Bool) (m : List (String × Entity))
    (h : ∀ ke ∈ m, ∃ pl, CodecService.encode1 eng installed provider ke.2 pretty = .ok pl) :
    ∃ pm, CodecService.encode eng installed provider (.dict m) pretty = .ok (.dict pm) ∧
      pm.map Prod.fst = m.map Prod.fst ∧
      List.Forall₂ (fun (ke : String × Entity) (kp : String × Payload) =>
        ke.1 = kp.1 ∧
        CodecService.encode1 eng installed provider ke.2 pretty = .ok kp.2) m pm := by
  obtain ⟨pm, hpm, hf⟩ := encodeMap_ok_of_all eng installed provider pretty m h
  refine ⟨pm, ?_, ?_, hf⟩
  · simp only [CodecService.encode, hpm]
  · clear hpm h
    induction hf with
    | nil => rfl
    | cons hkv _ ih => simp only [List.map_cons, ih, hkv.1]

/-- Closed witness for C6: the two-key batch over `pkga` succeeds with
keys `a`, `b` preserved and values equal to the single encodes. -/
theorem encode_batch_preserves_keys_witness :
    ∃ pm, CodecService.encode specEngine wInstalled ⟨.JSON⟩
        (.dict [("a", wEnt), ("b", wProto)]) true = .ok (.dict pm) ∧
      pm.map Prod.fst = [("a", wEnt), ("b", wProto)].map Prod.fst ∧
      List.Forall₂ (fun (ke : String × Entity) (kp : String × Payload) =>
        ke.1 = kp.1 ∧
        CodecService.encode1 specEngine wInstalled ⟨.JSON⟩ ke.2 true = .ok kp.2)
        [("a", wEnt), ("b", wProto)] pm :=
  encode_batch_preserves_keys specEngine wInstalled ⟨.JSON⟩ true
    [("a", wEnt), ("b", wProto)] (by
      intro ke hke
      simp only [List.mem_cons, List.not_mem_nil, or_false] at hke
      rcases hke with rfl | rfl
      · exact ⟨_, rfl⟩
      · exact ⟨_, rfl⟩)

/-- Helper: an entry whose single-item encode fails makes `encodeMap`
fail, with an error that is some entry's own encode error. -/
theorem encodeMap_error_of_mem (eng : Engine) (installed : Installed)
    (provider : Provider) (pretty : Bool) :
    ∀ (m : List (String × Entity)) (k : String) (ent : Entity),
    (k, ent) ∈ m →
    (∃ err, CodecService.encode1 eng installed provider ent pretty = .error err) →
    ∃ err, CodecService.encodeMap eng installed provider pretty m = .error err ∧
      ∃ k2 e2, (k2, e2) ∈ m ∧
        CodecService.encode1 eng installed provider e2 pretty = .error err := by
  intro m
  induction m with
  | nil => intro k ent h; cases h
  | cons ke rest ih =>
    intro k ent hmem herr
    obtain ⟨err, herr⟩ := herr
    obtain ⟨k1, e1⟩ := ke
    cases hcase : CodecService.encode1 eng installed provider e1 pretty with
    | error e0 =>
      refine ⟨e0, ?_, k1, e1, List.mem_cons_self _ _, hcase⟩
      simp only [CodecService.encodeMap, hcase]
    | ok pl =>
      have hrest : (k, ent) ∈ rest := by
        rcases List.mem_cons.mp hmem with heq | h
        · exfalso
          have : e1 = ent := congrArg Prod.snd heq.symm
          rw [this, herr] at hcase
          exact Except.noConfusion hcase
        · exact h
      obtain ⟨err2, hmap, k2, e2, hm2, he2⟩ := ih k ent hrest ⟨err, herr⟩
      refine ⟨err2, ?_, k2, e2, List.mem_cons_of_mem _ hm2, he2⟩
      simp only [CodecService.encodeMap, hcase, hmap]

/-- Helper: the decode analogue of `encodeMap_error_of_mem`. -/
theorem decodeMap_error_of_mem (eng : Engine) (installed : Installed)
    (provider : Provider) :
    ∀ (m : List (String × Payload)) (k : String) (pl : Payload),
    (k, pl) ∈ m →
    (∃ err, CodecService.decode1 eng installed provider pl = .error err) →
    ∃ err, CodecService.decodeMap eng installed provider m = .error err ∧
      ∃ k2 p2, (k2, p2) ∈ m ∧
        CodecService.decode1 eng installed provider p2 = .error err := by
  intro m
  induction m with
  | nil => intro k pl h; cases h
  | cons kp rest ih =>
    intro k pl hmem herr
    obtain ⟨err, herr⟩ := herr
    obtain ⟨k1, p1⟩ := kp
    cases hcase : CodecService.decode1 eng installed provider p1 with
    | error e0 =>
      refine ⟨e0, ?_, k1, p1, List.mem_cons_self _ _, hcase⟩
      simp only [CodecService.decodeMap, hcase]
    | ok ent =>
      have hrest : (k, pl) ∈ rest := by
        rcases List.mem_cons.mp hmem with heq | h
        · exfalso
          have : p1 = pl := congrArg Prod.snd heq.symm
          rw [this, herr] at hcase
          exact Except.noConfusion hcase
        · exact h
      obtain ⟨err2, hmap, k2, p2, hm2, hp2⟩ := ih k pl hrest ⟨err, herr⟩
      refine ⟨err2, ?_, k2, p2, List.mem_cons_of_mem _ hm2, hp2⟩
      simp only [CodecService.decodeMap, hcase, hmap]

/-- C7: a batch encode or decode over a mapping in which some key's
single-item operation fails aborts the whole batch: the call returns
no partial mapping of results, and the error it fails with is the
encode/decode error of one of the mapping's own entries. -/
theorem batch_fail_fast (eng : Engine) (installed : Installed)
    (provider : Provider) (pretty : Bool) :
    (∀ (m : List (String × Entity)) (k : String) (ent : Entity), (k, ent) ∈ m →
      (∃ err, CodecService.encode1 eng installed provider ent pretty = .error err) →
      (¬ ∃ ph, CodecService.encode eng installed provider (.dict m) pretty = .ok ph) ∧
      ∃ err, CodecService.encode eng installed provider (.dict m) pretty = .error err ∧
        ∃ k2 e2, (k2, e2) ∈ m ∧
          CodecService.encode1 eng installed provider e2 pretty = .error err) ∧
    (∀ (m : List (String × Payload)) (k : String) (pl : Payload), (k, pl) ∈ m →
      (∃ err, CodecService.decode1 eng installed provider pl = .error err) →
      (¬ ∃ eh, CodecService.decode eng installed provider (.dict m) = .ok eh) ∧
      ∃ err, CodecService.decode eng installed provider (.dict m) = .error err ∧
        ∃ k2 p2, (k2, p2) ∈ m ∧
          CodecService.decode1 eng installed provider p2 = .error err) := by
  constructor
  · intro m k ent hmem herr
    obtain ⟨err, hmap, wit⟩ := encodeMap_error_of_mem eng installed provider pretty m k ent hmem herr
    have hbatch : CodecService.encode eng installed provider (.dict m) pretty = .error err := by
      simp only [CodecService.encode, hmap]
    refine ⟨?_, err, hbatch, wit⟩
    rintro ⟨ph, hok⟩
    rw [hbatch] at hok
    exact Except.noConfusion hok
  · intro m k pl hmem herr
    obtain ⟨err, hmap, wit⟩ := decodeMap_error_of_mem eng installed provider m k pl hmem herr
    have hbatch : CodecService.decode eng installed provider (.dict m) = .error err := by
      simp only [CodecService.decode, hmap]
    refine ⟨?_, err, hbatch, wit⟩
    rintro ⟨eh, hok⟩
    rw [hbatch] at hok
    exact Except.noConfusion hok

/-- Closed witness for C7: a batch with an entity whose package is not
installed yields no encoded mapping; a batch with a payload whose pair
is unregistered yields no decoded mapping. -/
theorem batch_fail_fast_witness :
    (¬ ∃ ph, CodecService.encode specEngine wInstalled ⟨.JSON⟩
      (.dict [("a", wBadEnt)]) true = .ok ph) ∧
    (¬ ∃ eh, CodecService.decode specEngine wInstalled ⟨.JSON⟩
      (.dict [("a", .json [("x:y", .nil)])]) = .ok eh) :=
  ⟨((batch_fail_fast specEngine wInstalled ⟨.JSON⟩ true).1 [("a", wBadEnt)] "a" wBadEnt
      (List.mem_cons_self _ _) ⟨.moduleNotFoundError "nowhere", rfl⟩).1,
   ((batch_fail_fast specEngine wInstalled ⟨.JSON⟩ true).2 [("a", .json [("x:y", .nil)])]
      "a" (.json [("x:y", .nil)]) (List.mem_cons_self _ _) ⟨.nameError "ename", rfl⟩).1⟩

end Ydk

namespace Ydk

/-- Helper: the package scan over a concatenation tries the left part
first and falls through to the right part. -/
theorem scanPackages_append (l1 l2 : Installed) (p : String × String) :
    scanPackages (l1 ++ l2) p =
      match scanPackages l1 p with
      | some e => some e
      | none => scanPackages l2 p := by
  induction l1 with
  | nil => rfl
  | cons entry rest ih =>
    obtain ⟨nm, pkg⟩ := entry
    simp only [List.cons_append, scanPackages]
    cases lookupPair pkg.entityLookup p with
    | none => exact ih
    | some proto => rfl

/-- C9 counterexample: the same lookup, run against two
installed-package sets, returns different results — `_get_top_entity`
re-enumerates the installed packages with `pkgutil.iter_modules` on
every call, so the result is a function of the installed set at call
time; there is no registry snapshot cached at the first lookup, and a
later lookup does observe a package installed after an earlier one. -/
theorem namespace_index_rescan_counterexample :
    CodecService.get_top_entity [] wPayload .JSON = .error (.nameError "ename") ∧
    CodecService.get_top_entity wInstalled wPayload .JSON = .ok wProto ∧
    CodecService.get_top_entity [] wPayload .JSON ≠
      CodecService.get_top_entity wInstalled wPayload .JSON :=
  ⟨rfl, rfl, by
    intro h
    rw [show CodecService.get_top_entity [] wPayload .JSON =
        .error (.nameError "ename") from rfl,
      show CodecService.get_top_entity wInstalled wPayload .JSON = .ok wProto from rfl] at h
    exact Except.noConfusion h⟩

/-- C9 as amended: every lookup enumerates the then-current installed
model packages in order — a pair no installed package declares fails
(with the `NameError` of the broken failure branch), and the same
lookup succeeds once a package declaring the pair has been installed,
returning a clone of its prototype. -/
theorem namespace_index_rescan_amended (installed : Installed) (payload : Payload)
    (encoding : EncodingFormat) (p : String × String) (nm : String)
    (pkg : ModelPackage) (proto : Entity)
    (hs : get_ns_ename payload encoding = .ok p)
    (hmiss : scanPackages installed p = none)
    (hhit : lookupPair pkg.entityLookup p = some proto) :
    CodecService.get_top_entity installed payload encoding = .error (.nameError "ename") ∧
    CodecService.get_top_entity (installed ++ [(nm, pkg)]) payload encoding =
      .ok proto.clone_ptr := by
  constructor
  · simp only [CodecService.get_top_entity, hs, hmiss]
  · simp only [CodecService.get_top_entity, hs, scanPackages_append, hmiss,
      scanPackages, hhit]

/-- Closed witness for C9's amended statement: installing `pkga` after
a failed lookup makes the same lookup succeed. -/
theorem namespace_index_rescan_amended_witness :
    CodecService.get_top_entity [] wPayload .JSON = .error (.nameError "ename") ∧
    CodecService.get_top_entity ([] ++ [("pkga", wPkg)]) wPayload .JSON =
      .ok wProto.clone_ptr :=
  namespace_index_rescan_amended [] wPayload .JSON ("n", "t") "pkga" wPkg wProto
    rfl rfl rfl

end Ydk

namespace Ydk

/-- C3 (external engine and mapper modelled from the spec, §4.3/§6):
for a model object whose owning package is installed, whose
`(namespace, local-name)` pair is registered with the matching
empty-fields prototype, and whose identifiers are free of the wire
format's separator characters (as every schema-derived identifier is),
decoding the payload produced by encoding the object returns an object
equal to it field-for-field — for whichever encoding the provider
fixes, XML or JSON. -/
theorem encode_decode_roundtrip (installed : Installed) (provider : Provider)
    (pretty : Bool) (o : Entity) (pkg : ModelPackage)
    (hpkg : lookupPackage installed (pyRsplitParent o.module) = some pkg)
    (hreg : scanPackages installed (o.ns, o.ename) = some { o with fields := Fields.nil })
    (hwf : sniffable provider.encoding o.ns o.ename) :
    ∃ pl, CodecService.encode1 specEngine installed provider o pretty = .ok pl ∧
      CodecService.decode1 specEngine installed provider pl = .ok o := by
  obtain ⟨enc⟩ := provider
  obtain ⟨om, ons, oen, ofs⟩ := o
  simp only at hpkg hreg hwf
  have hbn : get_bundle_name installed (Entity.mk om ons oen ofs) = some pkg.bundleName := by
    simp only [get_bundle_name, hpkg, Option.map_some']
  have hyp : get_yang_path installed (Entity.mk om ons oen ofs) =
      some (pkg.path ++ "/_yang") := by
    simp only [get_yang_path, hpkg, Option.map_some']
  have hbn0 : get_bundle_name installed (Entity.mk om ons oen Fields.nil) =
      some pkg.bundleName := by
    simp only [get_bundle_name, hpkg, Option.map_some']
  have hyp0 : get_yang_path installed (Entity.mk om ons oen Fields.nil) =
      some (pkg.path ++ "/_yang") := by
    simp only [get_yang_path, hpkg, Option.map_some']
  cases enc with
  | XML =>
    obtain ⟨hx1, hx2⟩ := hwf
    refine ⟨xmlFormOf ons oen (fieldsToNodes ofs), ?_, ?_⟩
    · simp only [CodecService.encode1, hbn, hyp]
      rfl
    · have hsniff : get_ns_ename (xmlFormOf ons oen (fieldsToNodes ofs)) .XML =
          .ok (ons, oen) := by
        simp only [get_ns_ename, xmlFormOf, etreeFromstringTag, hx1, hx2]
      have htop : CodecService.get_top_entity installed
          (xmlFormOf ons oen (fieldsToNodes ofs)) .XML =
          .ok (Entity.mk om ons oen Fields.nil) := by
        simp only [CodecService.get_top_entity, hsniff, hreg]
      simp only [CodecService.decode1, htop, hbn0, hyp0]
      simp only [xmlFormOf, specEngine, specTreeDecode, specEntityFromDataNode,
        DataNode.childrenL, NodeList.length, NodeList.foldl, nodesToFields_fieldsToNodes]
      simp
  | JSON =>
    have hj1 : pySplitChar ':' (ons ++ ":" ++ oen) = [ons, oen] := hwf
    refine ⟨jsonFormOf ons oen (fieldsToNodes ofs), ?_, ?_⟩
    · simp only [CodecService.encode1, hbn, hyp]
      rfl
    · have hsniff : get_ns_ename (jsonFormOf ons oen (fieldsToNodes ofs)) .JSON =
          .ok (ons, oen) := by
        simp only [get_ns_ename, jsonFormOf, jsonLoadsKeys, List.map, hj1, get_string]
      have htop : CodecService.get_top_entity installed
          (jsonFormOf ons oen (fieldsToNodes ofs)) .JSON =
          .ok (Entity.mk om ons oen Fields.nil) := by
        simp only [CodecService.get_top_entity, hsniff, hreg]
      simp only [CodecService.decode1, htop, hbn0, hyp0]
      simp only [jsonFormOf, specEngine, specTreeDecode, jsonEntriesToNodes,
        specEntityFromDataNode, DataNode.childrenL, NodeList.length, NodeList.foldl,
        nodesToFields_fieldsToNodes]
      simp

/-- Closed witness for C3: the round trip on `wEnt`, once for each
encoding. -/
theorem encode_decode_roundtrip_witness :
    (∃ pl, CodecService.encode1 specEngine wInstalled ⟨.XML⟩ wEnt true = .ok pl ∧
      CodecService.decode1 specEngine wInstalled ⟨.XML⟩ pl = .ok wEnt) ∧
    (∃ pl, CodecService.encode1 specEngine wInstalled ⟨.JSON⟩ wEnt false = .ok pl ∧
      CodecService.decode1 specEngine wInstalled ⟨.JSON⟩ pl = .ok wEnt) :=
  ⟨encode_decode_roundtrip wInstalled ⟨.XML⟩ true wEnt wPkg rfl rfl (by decide),
   encode_decode_roundtrip wInstalled ⟨.JSON⟩ false wEnt wPkg rfl rfl (by decide)⟩

end Ydk
